import Mathlib

/-!
# Verification of the rtpeaks real-time peak/trough detection engine

Shallow embedding of the core detection code of `rtpeaks`
(`rtpeaks/rtp.py`: `rtp_finder`, `peak_or_trough`, `gen_thresh`,
`get_extrema`, `normalize`) and proofs about it.

Modelling conventions:
* `float64` values are modelled as real numbers (`np.sqrt` forces the
  carrier to be `ℝ` rather than `ℚ`: `gen_thresh` takes a genuine square
  root).  Timestamps and amplitudes are therefore `ℝ`.
* Field division by zero is total (`x / 0 = 0`) in Lean; comments at the
  points where a denominator can vanish in the source explain why the
  difference does not affect the stated results.
* numpy arrays are lists; `np.where(cond)[0]` is the ascending list of
  indices satisfying `cond`; a code path that raises (`ValueError`) returns
  `Option`.
-/

namespace RTPeaks

/-! ## List helpers mirroring the numpy primitives used by the source -/

/-- Sum of a list (`np.sum`). -/
noncomputable def listSum (xs : List ℝ) : ℝ := xs.foldr (· + ·) 0

/-- Arithmetic mean of a list (`data.mean()`); `0` on the empty list
(numpy would give `nan`; every use below is on a nonempty list). -/
noncomputable def listMean (xs : List ℝ) : ℝ := listSum xs / xs.length

/-- `data.max()`: maximum of a list, `0` as (unused) default on `[]`. -/
noncomputable def listMax (xs : List ℝ) : ℝ :=
  match xs with
  | [] => 0
  | x :: r => r.foldl max x

/-- `data.min()`: minimum of a list, `0` as (unused) default on `[]`. -/
noncomputable def listMin (xs : List ℝ) : ℝ :=
  match xs with
  | [] => 0
  | x :: r => r.foldl min x

/-- Population variance (the square of `np.std`, which uses `ddof = 0`). -/
noncomputable def listVar (xs : List ℝ) : ℝ :=
  listMean (xs.map (fun x => (x - listMean xs) ^ 2))

/-- `np.sign` on one entry. -/
noncomputable def npSign (x : ℝ) : Int := if 0 < x then 1 else if x < 0 then -1 else 0

/-- `np.diff`: successive differences, `diffs xs i = xs (i+1) - xs i`. -/
noncomputable def diffs (xs : List ℝ) : List ℝ :=
  match xs with
  | [] => []
  | _ :: t => List.zipWith (fun a b => b - a) xs t

/-- `np.diff` on integer-valued data (the trend array). -/
def diffsI (xs : List Int) : List Int :=
  match xs with
  | [] => []
  | _ :: t => List.zipWith (fun a b => b - a) xs t

/-- `np.where(p)[0]` starting from index `k`: the ascending indices (offset
by `k`) of the entries satisfying `p`. -/
def whereIdxFrom (p : β → Prop) [DecidablePred p] : ℕ → List β → List ℕ
  | _, [] => []
  | k, x :: xs =>
      if p x then k :: whereIdxFrom p (k + 1) xs else whereIdxFrom p (k + 1) xs

/-- `np.where(p)[0]`. -/
def whereIdx (p : β → Prop) [DecidablePred p] (xs : List β) : List ℕ :=
  whereIdxFrom p 0 xs

/-! ## Extrema Finder (`get_extrema`, `normalize`; `rtp.py` lines 473-526) -/

/-- `normalize(data)` (`rtp.py`, lines 511-526): subtract the mean.

The source additionally divides the centred data by its standard deviation
when `data.size > 1` and `data.std() != 0`.  That scalar is a *positive*
number, and the only consumer of `normalize` is `get_extrema`, every test
of which (`np.sign` of the first differences, `data > data.max() * thresh`,
`data < data.min() * thresh`) is invariant under multiplication of the
whole array by one positive constant: `sign(x/σ - y/σ) = sign(x - y)` and
`x/σ > (max/σ)·t ↔ x > max·t` for `σ > 0`.  The embedding therefore keeps
the centred, unscaled data, and `get_extrema` below computes exactly the
same index sets as the source on every input. -/
noncomputable def normalize (data : List ℝ) : List ℝ :=
  data.map (fun x => x - listMean data)

/-- The flat-run repair loop of `get_extrema` (`rtp.py`, lines 500-503):
for each index `i` with `trend[i] = 0`, walking from the last such index to
the first, set `trend[i]` to `1` if `trend[min(i + 1, trend.size) - 1] ≥ 0`
and to `-1` otherwise. -/
def fixFlat (trend : List Int) : List Int :=
  (whereIdx (fun s => s = 0) trend).reverse.foldl
    (fun tr i =>
      tr.set i (if 0 ≤ tr.getD (min (i + 1) tr.length - 1) 0 then 1 else -1))
    trend

/-- `get_extrema(data, peaks, thresh)` (`rtp.py`, lines 473-508): indices of
local maxima (`peaks = true`) or minima (`peaks = false`) of `data`, found
as sign changes of the first derivative of the normalized data, restricted
to entries above `max * thresh` (resp. below `min * thresh`).  A `thresh`
outside `[0, 1]` raises `ValueError` in the source, modelled as `none`.
`np.intersect1d` of two ascending duplicate-free index lists is their
ascending intersection. -/
noncomputable def get_extrema (data : List ℝ) (peaks : Bool) (thresh : ℝ) : Option (List ℕ) :=
  if thresh < 0 ∨ 1 < thresh then none
  else
    let d := normalize data
    let indx :=
      if peaks then whereIdx (fun x => listMax d * thresh < x) d
      else whereIdx (fun x => x < listMin d * thresh) d
    let trend := fixFlat ((diffs d).map npSign)
    let idx :=
      if peaks then (whereIdx (fun s => s = -2) (diffsI trend)).map (· + 1)
      else (whereIdx (fun s => s = 2) (diffsI trend)).map (· + 1)
    some (idx.filter (fun i => decide (i ∈ indx)))

/-! ## Data model -/

/-- One sample from the acquisition queue: `[time, amplitude]`
(`sample_queue.put([currtime, data[pipe]])` in `mpdev.py`, line 254). -/
structure Samp where
  t : ℝ
  v : ℝ

/-- One row of the `last_found` array: `[class, time, height]` where class
`1` marks a peak, `0` a trough and `-1` a dummy seed row. -/
structure Found where
  cls : ℝ
  t : ℝ
  v : ℝ

/-- The `(2 × 2)` threshold array returned by `gen_thresh`:
`[[avg time, std time], [avg height, std height]]`. -/
structure Thresh where
  tAvg : ℝ
  tStd : ℝ
  hAvg : ℝ
  hStd : ℝ

/-- One row put on `peak_queue` by `rtp_finder`: `[time, amplitude, class]`
of the sample that was current when the detection was logged (in debug mode
the source appends one extra bookkeeping column, `dic['newesttime']`, and
prints instead of injecting a keypress; neither affects which detections
are logged). -/
structure Event where
  t : ℝ
  v : ℝ
  kind : ℝ

/-! ## Python slicing -/

/-- Python slice-start normalization for a list of length `n`: a negative
start counts from the end and is clamped at `0`; a nonnegative start is
clamped at `n`. -/
def pyStart (n : ℕ) (start : Int) : ℕ :=
  if start < 0 then (max 0 ((n : Int) + start)).toNat else min start.toNat n

/-- Python/numpy basic slicing `xs[start : stop]` for an integer `start`
(possibly negative) and a natural number `stop`. -/
def pySlice (xs : List β) (start : Int) (stop : ℕ) : List β :=
  (xs.drop (pyStart xs.length start)).take (stop - pyStart xs.length start)

/-! ## Classifier (`peak_or_trough`; `rtp.py` lines 359-422) -/

/-- The `avgrate` local of `peak_or_trough` (`rtp.py`, lines 394-396;
called `lookback` in `utils.py`): `int(np.floor(tdiff / fs))` where
`tdiff = thresh[0,0] - thresh[0,1]`, replaced by `5` when negative. -/
noncomputable def avgrate (th : Thresh) (fs : ℝ) : Int :=
  let a := ⌊(th.tAvg - th.tStd) / fs⌋
  if a < 0 then 5 else a

/-- The `divide` local of `peak_or_trough` (`rtp.py`, lines 385-389):
`(signal[-1,0] - last_found[-1,1]) / (thresh[0,0] + thresh[0,1])`, clamped
below at `1`.  When the denominator is `0` the model yields `0` (hence
`divide = 1`) where float arithmetic yields `±inf` (hence `divide = inf`);
the denominator is `0` only for histories whose time distances are all `0`
(dummy seeds), and for those `thresh[1,0] - thresh[1,1] = 0` as well, so
the height margin `hdiff` is `0` under both conventions. -/
noncomputable def divideFactor (sig : List Samp) (lf : List Found) (th : Thresh) : ℝ :=
  let divide0 := ((sig.map Samp.t).getLastD 0 - (lf.getLastD ⟨0, 0, 0⟩).t) /
    (th.tAvg + th.tStd)
  if 1 < divide0 then divide0 else 1

/-- `peak_or_trough(signal, last_found, thresh, fs)` (`rtp.py`, lines
359-422).  Returns the pair (peak index or `None`, trough index or `None`).

* `last_found` is nonempty at every call site; the `getLastD` default row
  is never read.
* `thresh=0` is always valid for `get_extrema`, so its result is `some`;
  `getD []` unwraps it.
* In the source, `ex` is later taken from this result with Python
  truthiness (`peak or trough`), which would misbehave for index `0`;
  `get_extrema` never returns index `0` (theorem `get_extrema_mem`). -/
noncomputable def peak_or_trough (sig : List Samp) (lf : List Found) (th : Thresh)
    (fs : ℝ) : Option ℕ × Option ℕ :=
  let lastF := lf.getLastD ⟨0, 0, 0⟩
  let tdiff := th.tAvg - th.tStd
  let hdiff := (th.hAvg - th.hStd) / divideFactor sig lf th
  let rate := avgrate th fs
  let vals := sig.map Samp.v
  let pk : Option ℕ :=
    if lastF.cls ≠ 1 then
      match ((get_extrema vals true 0).getD []).getLast? with
      | some p =>
          if hdiff < vals.getD p 0 - lastF.v ∧
              tdiff < (sig.map Samp.t).getD p 0 - lastF.t ∧
              (∀ x ∈ pySlice vals ((p : Int) - rate) p, x ≤ vals.getD p 0) then
            some p
          else none
      | none => none
    else none
  match pk with
  | some p => (some p, none)
  | none =>
      if lastF.cls ≠ 0 then
        match ((get_extrema vals false 0).getD []).getLast? with
        | some tr =>
            if vals.getD tr 0 - lastF.v < -hdiff ∧
                tdiff < (sig.map Samp.t).getD tr 0 - lastF.t ∧
                (∀ x ∈ pySlice vals ((tr : Int) - rate) tr, vals.getD tr 0 ≤ x) then
              (none, some tr)
            else (none, none)
        | none => (none, none)
      else (none, none)

/-! ## Threshold Estimator (`gen_thresh`; `rtp.py` lines 425-470) -/

/-- `np.std(xs)`: population standard deviation. -/
noncomputable def npStd (xs : List ℝ) : ℝ := Real.sqrt (listVar xs)

/-- The `dist` local of `gen_thresh` (`rtp.py`, lines 445-452) for one
column selector `col` (`Found.t` for time, `Found.v` for height): pair the
most recent `min(#peaks, #troughs)` peak and trough values and subtract.
(`a[-size:]` with `size = 0` is all of `a` in Python; that case — exactly
one of the two classes empty and nonempty other — makes the source raise a
broadcasting error, and arises in no run considered here; the model then
yields `[]`.) -/
noncomputable def genDist (lf : List Found) (col : Found → ℝ) : List ℝ :=
  let peaks := (lf.filter (fun r => decide (r.cls = 1))).map col
  let troughs := (lf.filter (fun r => decide (r.cls = 0))).map col
  if peaks.length ≠ troughs.length then
    let size := min peaks.length troughs.length
    List.zipWith (· - ·) (peaks.drop (peaks.length - size))
      (troughs.drop (troughs.length - size))
  else List.zipWith (· - ·) peaks troughs

/-- The outlier rejection of `gen_thresh` (`rtp.py`, lines 454-457): keep
the differences within three standard deviations of their mean. -/
noncomputable def trimOutliers (dist : List ℝ) : List ℝ :=
  dist.filter (fun d =>
    decide (d ≤ listMean dist + npStd dist * 3 ∧ listMean dist - npStd dist * 3 ≤ d))

/-- The trimmed distance sample of `gen_thresh` for one axis. -/
noncomputable def distOf (lf : List Found) (col : Found → ℝ) : List ℝ :=
  trimOutliers (genDist lf col)

/-- `np.linspace(a, b, n)`: `n` evenly spaced values from `a` to `b`
inclusive. -/
noncomputable def linspace (a b : ℝ) (n : ℕ) : List ℝ :=
  if n = 1 then [a]
  else (List.range n).map (fun i => a + (b - a) * i / ((n : ℝ) - 1))

/-- `np.average(xs, weights := w)`: weighted average.  On an empty `xs` the
source raises ZeroDivisionError; the model yields `0`. -/
noncomputable def wavg (xs w : List ℝ) : ℝ :=
  listSum (List.zipWith (· * ·) xs w) / listSum w

/-- The signed `thresh` local of `gen_thresh` (`rtp.py`, lines 459-461):
weighted average of the trimmed differences, weights `np.linspace(1, 10,
dist.size)`.  The returned center is its absolute value; the `≤ 20`-records
dispersion is `thresh / 2` with its sign. -/
noncomputable def threshRaw (lf : List Found) (col : Found → ℝ) : ℝ :=
  wavg (distOf lf col) (linspace 1 10 (distOf lf col).length)

/-- The `variance` local of `gen_thresh` (`rtp.py`, lines 463-464):
weighted average of the squared deviations, times `dist.size`. -/
noncomputable def genVariance (lf : List Found) (col : Found → ℝ) : ℝ :=
  wavg ((distOf lf col).map (fun d => (d - threshRaw lf col) ^ 2))
      (linspace 1 10 (distOf lf col).length) *
    (distOf lf col).length

/-- One `[np.abs(thresh), stdev]` row of `gen_thresh`'s output (`rtp.py`,
lines 459-468): the dispersion is the weighted, bias-corrected standard
deviation times `2.5` when `last_found` has more than 20 rows, and the
signed `thresh / 2` otherwise. -/
noncomputable def genThreshAxis (lf : List Found) (col : Found → ℝ) : ℝ × ℝ :=
  let stdev :=
    if 20 < lf.length then
      Real.sqrt (genVariance lf col / ((distOf lf col).length - 1)) * 2.5
    else threshRaw lf col / 2
  (|threshRaw lf col|, stdev)

/-- `gen_thresh(last_found)` (`rtp.py`, lines 425-470). -/
noncomputable def gen_thresh (lf : List Found) : Thresh :=
  ⟨(genThreshAxis lf Found.t).1, (genThreshAxis lf Found.t).2,
    (genThreshAxis lf Found.v).1, (genThreshAxis lf Found.v).2⟩

/-! ## Detection Loop (`rtp_finder`; `rtp.py` lines 266-356) -/

/-- The configuration a `rtp_finder` session runs with.  `out` models the
return value of `get_baseline` (an external collaborator: it reads the
recorded baseline file and runs the `peakdet` batch peak finder); it is
only consulted when `baseline` is set.  `st` is the sampling time
`np.ceil(1000 / dic['samplerate'])`. -/
structure Config where
  baseline : Bool
  out : List Found
  st : ℝ

/-- The dummy seed history (`rtp.py`, lines 293-295):
`[[0,0,0],[1,0,0],[-1,0,0]] * 2`. -/
def seedHistory : List Found :=
  [⟨0, 0, 0⟩, ⟨1, 0, 0⟩, ⟨-1, 0, 0⟩, ⟨0, 0, 0⟩, ⟨1, 0, 0⟩, ⟨-1, 0, 0⟩]

/-- The mutable state of `rtp_finder`'s main loop: the accumulated window
`sig` and the detection history `last_found`.  The `thresh` local is not
part of the state: at every loop iteration it equals
`gen_thresh(last_found[:-1])` (it is recomputed from the new `last_found`
after every branch that changes `last_found`), so the model recomputes it
inside `step`. -/
structure LoopState where
  sig : List Samp
  lf : List Found

/-- The post-detection history repair (`rtp.py`, lines 326-330): when the
session is not baselined, `last_found` has grown past 7 rows and still
contains a time-zero (seed) row, drop every time-zero row and stack the
remainder on top of itself. -/
noncomputable def fixSeeds (cfg : Config) (lf' : List Found) : List Found :=
  if ¬cfg.baseline ∧ 7 < lf'.length ∧ lf'.any (fun r => decide (r.t = 0)) then
    lf'.filter (fun r => decide (r.t ≠ 0)) ++ lf'.filter (fun r => decide (r.t ≠ 0))
  else lf'

/-- The detection branch of `rtp_finder`'s loop (`rtp.py`, lines 319-346),
entered when `peak_or_trough` returned a detection `pt` on the grown window
`sig'` (whose last sample is `i`): `ex = peak or trough` and
`l = int(bool(peak))` — Python truthiness, well behaved because extrema
indices are never `0` (theorem `get_extrema_mem`).  The record
`[l, sig'[ex]]` is appended to `last_found` (then repaired by `fixSeeds`),
the event `[sig'[-1], l]` is put on `peak_queue` only if
`ex == len(sig') - 2` (in debug mode the put happens after a print instead
of a keypress, with one extra column; same condition), and the window is
reset to its last sample. -/
noncomputable def detectBranch (cfg : Config) (lf : List Found) (i : Samp)
    (sig' : List Samp) (ex : ℕ) (l : ℝ) :
    LoopState × Option Found × Option Event :=
  (⟨[i], fixSeeds cfg (lf ++ [⟨l, (sig'.map Samp.t).getD ex 0, (sig'.map Samp.v).getD ex 0⟩])⟩,
    some ⟨l, (sig'.map Samp.t).getD ex 0, (sig'.map Samp.v).getD ex 0⟩,
    if ex = sig'.length - 2 then some ⟨i.t, i.v, l⟩ else none)

/-- The history reset used both at baseline initialization (`rtp.py`,
lines 297-306) and in the 10-second timeout branch (lines 348-356): the
window becomes the single sample `i`, and `last_found` becomes the baseline
`out` with the timestamp of its last row set to
`i.t - gen_thresh(out[:-1])[0,0]`. -/
noncomputable def resetHistory (cfg : Config) (i : Samp) : LoopState :=
  ⟨[i], cfg.out.dropLast ++
    [⟨(cfg.out.getLastD ⟨0, 0, 0⟩).cls, i.t - (gen_thresh cfg.out.dropLast).tAvg,
      (cfg.out.getLastD ⟨0, 0, 0⟩).v⟩]⟩

/-- The state `rtp_finder` enters its main loop with (`rtp.py`, lines
287-309), given the first real sample `s0`: without a baseline the dummy
seed history; with a baseline, `get_baseline`'s output with its final
timestamp set to `s0.t - gen_thresh(out[:-1])[0,0]`. -/
noncomputable def initState (cfg : Config) (s0 : Samp) : LoopState :=
  if cfg.baseline then resetHistory cfg s0 else ⟨[s0], seedHistory⟩

/-- One iteration of `rtp_finder`'s `while` loop (`rtp.py`, lines 311-356)
on the sample `i`, returning the new state, the record appended to
`last_found` (if any) and the event put on `peak_queue` (if any).

* A sample below the decimation bound (`i[0] < sig[-1,0] + st`) is skipped.
* On a detection, `detectBranch` appends, logs and resets the window.
* Otherwise, when baselined and more than 10000 ms have passed since the
  last recorded event, the history is reset to the baseline seed
  (`resetHistory`); without a baseline nothing happens. -/
noncomputable def step (cfg : Config) (s : LoopState) (i : Samp) :
    LoopState × Option Found × Option Event :=
  if i.t < (s.sig.map Samp.t).getLastD 0 + cfg.st then (s, none, none)
  else
    let sig' := s.sig ++ [i]
    let pt := peak_or_trough sig' s.lf (gen_thresh s.lf.dropLast) cfg.st
    if pt.1 ≠ none ∨ pt.2 ≠ none then
      detectBranch cfg s.lf i sig'
        (match pt.1 with | some p => p | none => pt.2.getD 0)
        (match pt.1 with | some _ => 1 | none => 0)
    else if cfg.baseline ∧ 10000 < i.t - (s.lf.map Found.t).getLastD 0 then
      (resetHistory cfg i, none, none)
    else (⟨sig', s.lf⟩, none, none)

/-- Run `rtp_finder`'s loop over a list of incoming samples, collecting the
records appended to `last_found` and the events put on `peak_queue`, in
order. -/
noncomputable def run (cfg : Config) :
    LoopState → List Samp → LoopState × List Found × List Event
  | s, [] => (s, [], [])
  | s, i :: rest =>
      let r1 := step cfg s i
      let r2 := run cfg r1.1 rest
      (r2.1, r1.2.1.toList ++ r2.2.1, r1.2.2.toList ++ r2.2.2)

/-! ## Structural lemmas -/

theorem mem_whereIdxFrom {p : β → Prop} [DecidablePred p] {k i : ℕ} {xs : List β}
    (h : i ∈ whereIdxFrom p k xs) : k ≤ i ∧ i < k + xs.length := by
  induction xs generalizing k with
  | nil => simp [whereIdxFrom] at h
  | cons x xs ih =>
      simp only [whereIdxFrom] at h
      simp only [List.length_cons]
      split at h
      · rcases List.mem_cons.mp h with rfl | h'
        · omega
        · have := ih h'; omega
      · have := ih h; omega

theorem foldl_set_length (idx : List ℕ) : ∀ tr : List Int,
    (idx.foldl
      (fun tr i => tr.set i (if 0 ≤ tr.getD (min (i + 1) tr.length - 1) 0 then 1 else -1))
      tr).length = tr.length := by
  induction idx with
  | nil => intro tr; rfl
  | cons j js ih => intro tr; rw [List.foldl_cons, ih, List.length_set]

theorem length_fixFlat (tr : List Int) : (fixFlat tr).length = tr.length := by
  unfold fixFlat
  exact foldl_set_length _ _

theorem length_diffs (xs : List ℝ) : (diffs xs).length = xs.length - 1 := by
  cases xs with
  | nil => rfl
  | cons x t => simp [diffs]

theorem length_diffsI (xs : List Int) : (diffsI xs).length = xs.length - 1 := by
  cases xs with
  | nil => rfl
  | cons x t => simp [diffsI]

theorem length_normalize (xs : List ℝ) : (normalize xs).length = xs.length := by
  simp [normalize]

/-- Every index returned by `get_extrema` is at least `1` and at most
`data.length - 2`. -/
theorem get_extrema_mem {data : List ℝ} {pk : Bool} {th : ℝ} {l : List ℕ}
    (h : get_extrema data pk th = some l) :
    ∀ i ∈ l, 1 ≤ i ∧ i + 2 ≤ data.length := by
  intro i hi
  simp only [get_extrema] at h
  split at h
  · exact absurd h (by simp)
  · rw [Option.some_inj] at h
    subst h
    have hi1 := (List.mem_filter.mp hi).1
    have hlen : ((fixFlat ((diffs (normalize data)).map npSign))).length
        = data.length - 1 := by
      rw [length_fixFlat, List.length_map, length_diffs, length_normalize]
    have key : ∃ j, i = j + 1 ∧
        j < (diffsI (fixFlat ((diffs (normalize data)).map npSign))).length := by
      by_cases hpk : pk = true
      · rw [if_pos hpk] at hi1
        rcases List.mem_map.mp hi1 with ⟨j, hjm, hj⟩
        refine ⟨j, hj.symm, ?_⟩
        simpa using (mem_whereIdxFrom hjm).2
      · rw [if_neg hpk] at hi1
        rcases List.mem_map.mp hi1 with ⟨j, hjm, hj⟩
        refine ⟨j, hj.symm, ?_⟩
        simpa using (mem_whereIdxFrom hjm).2
    rcases key with ⟨j, rfl, hj⟩
    rw [length_diffsI, hlen] at hj
    omega

/-- With the default threshold `0` (the only one the Classifier uses),
`get_extrema` never raises. -/
theorem get_extrema_zero (data : List ℝ) (pk : Bool) :
    ∃ l, get_extrema data pk 0 = some l := by
  unfold get_extrema
  rw [if_neg (by norm_num)]
  exact ⟨_, rfl⟩

/-- Shape of the Classifier's result (`peak_or_trough`): either no
detection, or a peak index coming from the last entry of `get_extrema`'s
peak list when the last recorded kind is not a peak, or symmetrically a
trough index. -/
theorem pot_shape (sig : List Samp) (lf : List Found) (th : Thresh) (fs : ℝ) :
    peak_or_trough sig lf th fs = (none, none) ∨
    (∃ p, peak_or_trough sig lf th fs = (some p, none) ∧
      (lf.getLastD ⟨0, 0, 0⟩).cls ≠ 1 ∧
      ((get_extrema (sig.map Samp.v) true 0).getD []).getLast? = some p) ∨
    (∃ tr, peak_or_trough sig lf th fs = (none, some tr) ∧
      (lf.getLastD ⟨0, 0, 0⟩).cls ≠ 0 ∧
      ((get_extrema (sig.map Samp.v) false 0).getD []).getLast? = some tr) := by
  simp only [peak_or_trough]
  split
  next p hpk =>
    have hcls : (lf.getLastD ⟨0, 0, 0⟩).cls ≠ 1 := by
      intro hc
      rw [if_neg (not_not_intro hc)] at hpk
      exact Option.noConfusion hpk
    rw [if_pos hcls] at hpk
    right; left
    refine ⟨p, rfl, hcls, ?_⟩
    split at hpk
    next p' hg =>
      split at hpk
      · rwa [Option.some_inj.mp hpk] at hg
      · exact absurd hpk (by simp)
    next hg => exact absurd hpk (by simp)
  next hpk =>
    split
    next hcls =>
      split
      next tr' hg =>
        split
        next hcond => right; right; exact ⟨tr', rfl, hcls, hg⟩
        next => left; rfl
      next hg => left; rfl
    next hcls => left; rfl

/-- A peak reported by the Classifier: the last recorded kind was not a
peak, and the reported index is an interior index of the window. -/
theorem pot_fst (sig : List Samp) (lf : List Found) (th : Thresh) (fs : ℝ) (p : ℕ)
    (h : (peak_or_trough sig lf th fs).1 = some p) :
    (lf.getLastD ⟨0, 0, 0⟩).cls ≠ 1 ∧ 1 ≤ p ∧ p + 2 ≤ sig.length := by
  rcases pot_shape sig lf th fs with h0 | ⟨p', he, hcls, hg⟩ | ⟨tr, he, hcls, hg⟩
  · rw [h0] at h; exact absurd h (by simp)
  · rw [he] at h
    have hpp : p' = p := by simpa using h
    rw [hpp] at hg
    obtain ⟨l, hl⟩ := get_extrema_zero (sig.map Samp.v) true
    rw [hl] at hg
    simp only [Option.getD_some] at hg
    have hm : p ∈ l := List.mem_of_mem_getLast? (Option.mem_def.mpr hg)
    have hb := get_extrema_mem hl p hm
    rw [List.length_map] at hb
    exact ⟨hcls, hb⟩
  · rw [he] at h; exact absurd h (by simp)

/-- A trough reported by the Classifier: the last recorded kind was not a
trough, and the reported index is an interior index of the window. -/
theorem pot_snd (sig : List Samp) (lf : List Found) (th : Thresh) (fs : ℝ) (tr : ℕ)
    (h : (peak_or_trough sig lf th fs).2 = some tr) :
    (lf.getLastD ⟨0, 0, 0⟩).cls ≠ 0 ∧ 1 ≤ tr ∧ tr + 2 ≤ sig.length := by
  rcases pot_shape sig lf th fs with h0 | ⟨p', he, hcls, hg⟩ | ⟨tr', he, hcls, hg⟩
  · rw [h0] at h; exact absurd h (by simp)
  · rw [he] at h; exact absurd h (by simp)
  · rw [he] at h
    have hpp : tr' = tr := by simpa using h
    rw [hpp] at hg
    obtain ⟨l, hl⟩ := get_extrema_zero (sig.map Samp.v) false
    rw [hl] at hg
    simp only [Option.getD_some] at hg
    have hm : tr ∈ l := List.mem_of_mem_getLast? (Option.mem_def.mpr hg)
    have hb := get_extrema_mem hl tr hm
    rw [List.length_map] at hb
    exact ⟨hcls, hb⟩

/-! ## The Detection Loop's history alternation -/

/-- The window invariant the Detection Loop maintains when it starts from a
sample with a nonnegative timestamp: the window is nonempty, its last
timestamp is nonnegative, and every entry after the first has a positive
timestamp (so a record appended at an extremum index, which is never `0`,
never carries timestamp `0` and survives the `fixSeeds` purge). -/
def GoodWin (s : LoopState) : Prop :=
  s.sig ≠ [] ∧ 0 ≤ (s.sig.map Samp.t).getLastD 0 ∧ ∀ x ∈ s.sig.tail, 0 < x.t

theorem getD_map_t_pos {xs : List Samp} {ex : ℕ} (h1 : 1 ≤ ex) (h2 : ex < xs.length)
    (hx : ∀ x ∈ xs.tail, 0 < x.t) : 0 < (xs.map Samp.t).getD ex 0 := by
  cases xs with
  | nil => simp at h2
  | cons a t =>
      rcases Nat.exists_eq_add_of_le h1 with ⟨k, rfl⟩
      have hk : k < t.length := by simp at h2; omega
      rw [List.map_cons, show 1 + k = k + 1 by omega, List.getD_cons_succ,
        List.getD_eq_getElem _ _ (by simpa using hk), List.getElem_map]
      exact hx _ (List.getElem_mem hk)

theorem tail_append_singleton {xs : List Samp} (h : xs ≠ []) (i : Samp) :
    (xs ++ [i]).tail = xs.tail ++ [i] := by
  cases xs with
  | nil => exact absurd rfl h
  | cons a t => rfl

theorem fixSeeds_getLastD (cfg : Config) (lf : List Found) (r0 : Found)
    (h : r0.t ≠ 0) : (fixSeeds cfg (lf ++ [r0])).getLastD ⟨0, 0, 0⟩ = r0 := by
  unfold fixSeeds
  split
  · rw [List.filter_append]
    have hr : List.filter (fun r => decide (r.t ≠ 0)) [r0] = [r0] := by simp [h]
    rw [hr, ← List.append_assoc]
    exact List.getLastD_concat _ _ _
  · exact List.getLastD_concat _ _ _

/-- How one loop step changes the history in a session without baseline
mode: either nothing is appended and the history is untouched, or exactly
the classified record is appended, its kind differs from the previously
last recorded kind, and it becomes the last row of the new history; the
window invariant is preserved. -/
theorem step_behavior (cfg : Config) (s : LoopState) (i : Samp)
    (hb : cfg.baseline = false) (hst : 0 < cfg.st) (hw : GoodWin s) :
    GoodWin (step cfg s i).1 ∧
      (((step cfg s i).2.1 = none ∧ (step cfg s i).1.lf = s.lf) ∨
        ∃ r, (step cfg s i).2.1 = some r ∧
          r.cls ≠ (s.lf.getLastD ⟨0, 0, 0⟩).cls ∧
          ((step cfg s i).1.lf.getLastD ⟨0, 0, 0⟩).cls = r.cls) := by
  obtain ⟨hne, hlast, htail⟩ := hw
  simp only [step]
  by_cases hdec : i.t < (s.sig.map Samp.t).getLastD 0 + cfg.st
  · simp only [if_pos hdec]
    exact ⟨⟨hne, hlast, htail⟩, Or.inl ⟨by trivial, by trivial⟩⟩
  · simp only [if_neg hdec]
    have hi : 0 < i.t := lt_of_lt_of_le (by linarith) (not_lt.mp hdec)
    have htail' : ∀ x ∈ (s.sig ++ [i]).tail, 0 < x.t := by
      rw [tail_append_singleton hne]
      intro x hx
      rcases List.mem_append.mp hx with hx | hx
      · exact htail x hx
      · rwa [List.mem_singleton.mp hx]
    rcases pot_shape (s.sig ++ [i]) s.lf (gen_thresh s.lf.dropLast) cfg.st with
      h0 | ⟨p, he, hcls, _⟩ | ⟨tr, he, hcls, _⟩
    · rw [h0, if_neg (by simp), if_neg (by simp [hb])]
      exact ⟨⟨by simp, by simpa using le_of_lt hi, htail'⟩, Or.inl ⟨by trivial, by trivial⟩⟩
    · obtain ⟨_, hp1, hp2⟩ := pot_fst _ _ _ _ p (by rw [he])
      rw [he, if_pos (by simp)]
      simp only [detectBranch, Option.getD_some]
      have htpos : 0 < ((s.sig ++ [i]).map Samp.t).getD p 0 :=
        getD_map_t_pos hp1 (by omega) htail'
      refine ⟨⟨by simp, by simpa using le_of_lt hi, by simp⟩, Or.inr ?_⟩
      refine ⟨⟨1, ((s.sig ++ [i]).map Samp.t).getD p 0, ((s.sig ++ [i]).map Samp.v).getD p 0⟩,
        by trivial, hcls.symm, ?_⟩
      exact congrArg Found.cls (fixSeeds_getLastD cfg s.lf
        ⟨1, ((s.sig ++ [i]).map Samp.t).getD p 0, ((s.sig ++ [i]).map Samp.v).getD p 0⟩
        (ne_of_gt htpos))
    · obtain ⟨_, hp1, hp2⟩ := pot_snd _ _ _ _ tr (by rw [he])
      rw [he, if_pos (by simp)]
      simp only [detectBranch, Option.getD_some]
      have htpos : 0 < ((s.sig ++ [i]).map Samp.t).getD tr 0 :=
        getD_map_t_pos hp1 (by omega) htail'
      refine ⟨⟨by simp, by simpa using le_of_lt hi, by simp⟩, Or.inr ?_⟩
      refine ⟨⟨0, ((s.sig ++ [i]).map Samp.t).getD tr 0, ((s.sig ++ [i]).map Samp.v).getD tr 0⟩,
        by trivial, hcls.symm, ?_⟩
      exact congrArg Found.cls (fixSeeds_getLastD cfg s.lf
        ⟨0, ((s.sig ++ [i]).map Samp.t).getD tr 0, ((s.sig ++ [i]).map Samp.v).getD tr 0⟩
        (ne_of_gt htpos))

/-- Over any input list, in a session without baseline mode, the kind of
the last recorded row followed by the kinds of all appended records forms a
chain of pairwise-distinct neighbours. -/
theorem run_chain (cfg : Config) (hb : cfg.baseline = false) (hst : 0 < cfg.st) :
    ∀ (ins : List Samp) (s : LoopState), GoodWin s →
      List.Chain' (· ≠ ·)
        ((s.lf.getLastD ⟨0, 0, 0⟩).cls :: ((run cfg s ins).2.1.map Found.cls)) := by
  intro ins
  induction ins with
  | nil => intro s _; simp [run]
  | cons i rest ih =>
      intro s hs
      obtain ⟨hgw, hcase⟩ := step_behavior cfg s i hb hst hs
      simp only [run]
      rcases hcase with ⟨hnone, hlf⟩ | ⟨r, hsome, hnecls, hlast⟩
      · rw [hnone]
        simp only [Option.toList_none, List.nil_append]
        have hrec := ih (step cfg s i).1 hgw
        rwa [hlf] at hrec
      · rw [hsome]
        simp only [Option.toList_some, List.singleton_append, List.map_cons]
        rw [List.chain'_cons]
        refine ⟨hnecls.symm, ?_⟩
        have hrec := ih (step cfg s i).1 hgw
        rwa [hlast] at hrec

/-! ## Claims -/

/-- C3: for every call of the Classifier `peak_or_trough(window, history,
thresholds, fs)`, at most one of the returned peak index and trough index
is non-`None`: the function never reports both a peak and a trough in the
same call, for any window, history and thresholds. -/
theorem C3_at_most_one_detection (sig : List Samp) (lf : List Found) (th : Thresh)
    (fs : ℝ) :
    (peak_or_trough sig lf th fs).1 = none ∨ (peak_or_trough sig lf th fs).2 = none := by
  rcases pot_shape sig lf th fs with h | ⟨p, h, _, _⟩ | ⟨tr, h, _, _⟩ <;> rw [h] <;> simp

/-- C5 (amended): `gen_thresh` always returns a non-negative mean on both
axes (it is an absolute value); the dispersion, however, equals the signed
weighted mean halved when the history has at most 20 rows, so it is
guaranteed non-negative only when that signed mean is non-negative (in the
more-than-20-rows branch it is `2.5·√(…)`, always non-negative). -/
theorem C5_thresh_nonneg (lf : List Found) :
    0 ≤ (gen_thresh lf).tAvg ∧ 0 ≤ (gen_thresh lf).hAvg ∧
      (0 ≤ threshRaw lf Found.t → 0 ≤ (gen_thresh lf).tStd) ∧
      (0 ≤ threshRaw lf Found.v → 0 ≤ (gen_thresh lf).hStd) ∧
      (20 < lf.length → 0 ≤ (gen_thresh lf).tStd ∧ 0 ≤ (gen_thresh lf).hStd) := by
  simp only [gen_thresh, genThreshAxis]
  refine ⟨abs_nonneg _, abs_nonneg _, ?_, ?_, ?_⟩
  · intro h
    split
    · exact mul_nonneg (Real.sqrt_nonneg _) (by norm_num)
    · linarith
  · intro h
    split
    · exact mul_nonneg (Real.sqrt_nonneg _) (by norm_num)
    · linarith
  · intro h
    rw [if_pos h, if_pos h]
    exact ⟨mul_nonneg (Real.sqrt_nonneg _) (by norm_num),
      mul_nonneg (Real.sqrt_nonneg _) (by norm_num)⟩

/-- Witness for C5 at a concrete two-record history whose peak-minus-trough
time and height differences are positive. -/
theorem C5_witness :
    0 ≤ threshRaw [⟨0, 5, 1⟩, ⟨1, 10, 3⟩] Found.t ∧
      0 ≤ (gen_thresh [⟨0, 5, 1⟩, ⟨0, 10, 3⟩]).tAvg ∧
      0 ≤ (gen_thresh [⟨0, 5, 1⟩, ⟨1, 10, 3⟩]).tStd := by
  have hr : 0 ≤ threshRaw [⟨0, 5, 1⟩, ⟨1, 10, 3⟩] Found.t := by
    norm_num [threshRaw, distOf, trimOutliers, npStd, genDist, linspace, wavg,
      listVar, listMean, listSum, Real.sqrt_zero]
  exact ⟨hr, (C5_thresh_nonneg _).1, (C5_thresh_nonneg _).2.2.1 hr⟩

/-- Counterexample to C5 as stated: a history of two peak/trough pairs
(four records, heights all `5`, troughs 10 ms after peaks) on which
`gen_thresh` returns a negative time dispersion: the signed weighted mean
of the peak-minus-trough time differences is `-10`, so the returned
dispersion is `-5 < 0`. -/
theorem C5_cex :
    (gen_thresh [⟨1, 0, 5⟩, ⟨0, 10, 5⟩, ⟨1, 20, 5⟩, ⟨0, 30, 5⟩]).tStd < 0 := by
  norm_num [gen_thresh, genThreshAxis, threshRaw, distOf, trimOutliers, npStd, genDist,
    linspace, wavg, listVar, listMean, listSum, Real.sqrt_zero, List.range_succ]

/-- C6 (amended): the Classifier's lookback (`avgrate`) equals
`⌊(thresholds.time.mean - thresholds.time.dispersion) / fs⌋` — the
numerator is the mean **minus the dispersion**, not the mean — and only a
strictly negative value is replaced by the default `5` (zero is kept). -/
theorem C6_lookback (th : Thresh) (fs : ℝ) :
    (⌊(th.tAvg - th.tStd) / fs⌋ < 0 → avgrate th fs = 5) ∧
      (0 ≤ ⌊(th.tAvg - th.tStd) / fs⌋ →
        avgrate th fs = ⌊(th.tAvg - th.tStd) / fs⌋) := by
  unfold avgrate
  exact ⟨fun h => if_pos h, fun h => if_neg (not_lt.mpr h)⟩

/-- Witness for C6: with mean 12, dispersion 4 and sampling interval 2 the
lookback is `⌊(12 - 4) / 2⌋ = 4`. -/
theorem C6_witness : avgrate ⟨12, 4, 0, 0⟩ 2 = ⌊((12 : ℝ) - 4) / 2⌋ :=
  (C6_lookback ⟨12, 4, 0, 0⟩ 2).2 (by norm_num)

/-- Counterexample to C6 as stated: with `thresholds.time.mean = 12`,
`thresholds.time.dispersion = 4` and sampling interval `2`, the code's
lookback is `⌊(12 - 4)/2⌋ = 4`, not `⌊12/2⌋ = 6` as the claim's formula
(`floor(mean / sampling_interval)`, positive here so no 5-default) says. -/
theorem C6_cex : avgrate ⟨12, 4, 0, 0⟩ 2 ≠ ⌊(12 : ℝ) / 2⌋ := by
  have h1 : avgrate ⟨12, 4, 0, 0⟩ 2 = 4 := by
    unfold avgrate
    norm_num
  rw [h1]
  norm_num

/-- C7 (amended): on each axis, `gen_thresh`'s dispersion equals the
*signed* weighted mean of the trimmed differences divided by 2 whenever
`last_found` has at most 20 rows (which differs from `mean / 2` in sign,
the returned mean being an absolute value), and equals the weighted,
bias-corrected standard deviation of the trimmed differences times 2.5
only from 21 rows on (`shape[0] > 20`). -/
theorem C7_dispersion (lf : List Found) :
    (lf.length ≤ 20 →
      (gen_thresh lf).tStd = threshRaw lf Found.t / 2 ∧
        (gen_thresh lf).hStd = threshRaw lf Found.v / 2) ∧
      (20 < lf.length →
        (gen_thresh lf).tStd =
          Real.sqrt (genVariance lf Found.t / ((distOf lf Found.t).length - 1)) * 2.5 ∧
          (gen_thresh lf).hStd =
            Real.sqrt (genVariance lf Found.v / ((distOf lf Found.v).length - 1)) * 2.5) := by
  simp only [gen_thresh, genThreshAxis]
  constructor
  · intro h
    rw [if_neg (not_lt.mpr h), if_neg (not_lt.mpr h)]
    exact ⟨rfl, rfl⟩
  · intro h
    rw [if_pos h, if_pos h]
    exact ⟨rfl, rfl⟩

/-- Witness for C7 at a concrete two-record history: the dispersion is the
signed weighted time mean `4` halved. -/
theorem C7_witness :
    (gen_thresh [⟨0, 2, 1⟩, ⟨1, 6, 4⟩]).tStd = threshRaw [⟨0, 2, 1⟩, ⟨1, 6, 4⟩] Found.t / 2 ∧
      (gen_thresh [⟨0, 2, 1⟩, ⟨1, 6, 4⟩]).hStd =
        threshRaw [⟨0, 2, 1⟩, ⟨1, 6, 4⟩] Found.v / 2 :=
  (C7_dispersion _).1 (by norm_num)

/-- Counterexample to C7 as stated: with the two qualifying records
`peak (t=0)`, `trough (t=10)` — fewer than 20 — the returned time mean is
`10` but the returned time dispersion is `-5`, not `mean / 2 = 5`: the
`thresh / 2` fallback keeps the sign of the weighted mean while the
returned mean is its absolute value. -/
theorem C7_cex :
    (gen_thresh [⟨1, 0, 0⟩, ⟨0, 10, 0⟩]).tStd ≠
      (gen_thresh [⟨1, 0, 0⟩, ⟨0, 10, 0⟩]).tAvg / 2 := by
  norm_num [gen_thresh, genThreshAxis, threshRaw, distOf, trimOutliers, npStd, genDist,
    linspace, wavg, listVar, listMean, listSum, Real.sqrt_zero]

/-- C8 (Scenario D): `get_extrema` on `[0,1,2,1,0,-1,-2,-1,0]` with the
default threshold `0` returns exactly index `2` when seeking peaks and
exactly index `6` when seeking troughs. -/
theorem C8_scenarioD :
    get_extrema ([0, 1, 2, 1, 0, -1, -2, -1, 0] : List ℝ) true 0 = some [2] ∧
      get_extrema ([0, 1, 2, 1, 0, -1, -2, -1, 0] : List ℝ) false 0 = some [6] := by
  constructor <;>
    norm_num [get_extrema, normalize, listMean, listSum, listMax, listMin, fixFlat,
      whereIdx, whereIdxFrom, diffs, diffsI, npSign, List.getD]

/-- C9: for a threshold in `[0, 1]` and nonempty data, `get_extrema`
returns (it does not raise), every returned index `i` satisfies
`1 ≤ i ≤ len(data) - 2` — the first and last window positions are never
reported — and data of fewer than 3 samples yields an empty result. -/
theorem C9_extrema_interior (data : List ℝ) (peaks : Bool) (thresh : ℝ)
    (h0 : 0 ≤ thresh) (h1 : thresh ≤ 1) (_hne : data ≠ []) :
    ∃ l, get_extrema data peaks thresh = some l ∧
      (∀ i ∈ l, 1 ≤ i ∧ i ≤ data.length - 2) ∧ (data.length < 3 → l = []) := by
  obtain ⟨l, hl⟩ : ∃ l, get_extrema data peaks thresh = some l := by
    unfold get_extrema
    rw [if_neg (by push_neg; exact ⟨h0, h1⟩)]
    exact ⟨_, rfl⟩
  refine ⟨l, hl, fun i hi => ?_, fun h3 => ?_⟩
  · have := get_extrema_mem hl i hi
    omega
  · rw [List.eq_nil_iff_forall_not_mem]
    intro i hi
    have := get_extrema_mem hl i hi
    omega

/-- Witness for C9 on the three-sample window `[0, 1, 0]`. -/
theorem C9_witness :
    ∃ l, get_extrema ([0, 1, 0] : List ℝ) true 0 = some l ∧
      (∀ i ∈ l, 1 ≤ i ∧ i ≤ ([0, 1, 0] : List ℝ).length - 2) ∧
      (([0, 1, 0] : List ℝ).length < 3 → l = []) :=
  C9_extrema_interior [0, 1, 0] true 0 le_rfl zero_le_one (by simp)

/-- C10: in the Classifier's local-dominance check, when the candidate
index `p` is smaller than the lookback while the window holds at least
`lookback` samples, the Python slice `window[p - lookback : p]` is empty
(the negative start wraps to a position at or past `p`), so the `np.all`
over it holds vacuously and can never reject the candidate. -/
theorem C10_lookback_slice_empty {β : Type*} (xs : List β) (p : ℕ) (lb : Int)
    (h1 : (p : Int) < lb) (h2 : lb ≤ xs.length) :
    pySlice xs ((p : Int) - lb) p = [] ∧
      ∀ P : β → Prop, ∀ x ∈ pySlice xs ((p : Int) - lb) p, P x := by
  have hs : p ≤ pyStart xs.length ((p : Int) - lb) := by
    unfold pyStart
    rw [if_pos (by omega)]
    omega
  have he : pySlice xs ((p : Int) - lb) p = [] := by
    unfold pySlice
    rw [Nat.sub_eq_zero_of_le hs]
    simp
  exact ⟨he, fun P x hx => absurd hx (by rw [he]; exact List.not_mem_nil x)⟩

/-- Witness for C10: a three-element window, candidate index 1, lookback 3. -/
theorem C10_witness :
    pySlice ([10, 20, 30] : List ℝ) (((1 : ℕ) : Int) - 3) 1 = [] ∧
      ∀ P : ℝ → Prop, ∀ x ∈ pySlice ([10, 20, 30] : List ℝ) (((1 : ℕ) : Int) - 3) 1, P x :=
  C10_lookback_slice_empty [10, 20, 30] 1 3 (by norm_num) (by norm_num)

/-- C2 (amended): when an accepted sample yields no detection and more than
the fixed bound of 10000 ms (not the adaptive time bound) has passed since
the last recorded event, the loop with a baseline resets the window to the
current sample and the history to the baseline seed with its final
timestamp set back by the seed's mean inter-event time — no `Forced` record
exists, nothing is appended to the history and nothing is emitted; without
a baseline the timeout branch does not exist and the window simply keeps
growing. -/
theorem C2_timeout_behavior (cfg : Config) (s : LoopState) (i : Samp)
    (h1 : ¬ i.t < (s.sig.map Samp.t).getLastD 0 + cfg.st)
    (h2 : peak_or_trough (s.sig ++ [i]) s.lf (gen_thresh s.lf.dropLast) cfg.st
      = (none, none))
    (h3 : 10000 < i.t - (s.lf.map Found.t).getLastD 0) :
    step cfg s i =
      if cfg.baseline then (resetHistory cfg i, none, none)
      else (⟨s.sig ++ [i], s.lf⟩, none, none) := by
  simp only [step, if_neg h1]
  rw [h2, if_neg (by simp)]
  by_cases hb : cfg.baseline = true
  · rw [if_pos ⟨hb, h3⟩, if_pos hb]
  · rw [if_neg (fun hc => hb hc.1), if_neg hb]

/-- Witness for C2: a baselined session one sample past a 20-second gap
with a flat two-sample window (no extrema) resets to the baseline seed. -/
theorem C2_witness :
    step ⟨true, [⟨1, 5, 2⟩, ⟨0, 10, 1⟩], 1⟩ ⟨[⟨0, 3⟩], [⟨0, 10, 1⟩]⟩ ⟨20000, 3⟩ =
      (resetHistory ⟨true, [⟨1, 5, 2⟩, ⟨0, 10, 1⟩], 1⟩ ⟨20000, 3⟩, none, none) := by
  have h := C2_timeout_behavior ⟨true, [⟨1, 5, 2⟩, ⟨0, 10, 1⟩], 1⟩ ⟨[⟨0, 3⟩], [⟨0, 10, 1⟩]⟩
    ⟨20000, 3⟩ (by norm_num)
    (by norm_num [peak_or_trough, divideFactor, avgrate, gen_thresh, genThreshAxis,
      threshRaw, genVariance, distOf, trimOutliers, npStd, genDist, linspace, wavg,
      listVar, listMean, listSum, listMax, listMin, get_extrema, normalize, fixFlat,
      whereIdx, whereIdxFrom, diffs, diffsI, npSign, pySlice, pyStart, List.getD,
      Real.sqrt_zero])
    (by norm_num)
  simpa using h

/-- Counterexample to C2 as stated: a session without a baseline, seeded
with the dummy history (all-zero thresholds, so the adaptive time bound
`thresholds.time.mean + thresholds.time.dispersion` is `0`), receives a
sample 10000 ms after the last event with no detection.  The elapsed time
exceeds the adaptive bound, yet the loop forces nothing: no record of any
kind is appended, nothing is emitted, the history stays exactly the dummy
seed and the window grows instead of being truncated. -/
theorem C2_cex :
    (gen_thresh seedHistory.dropLast).tAvg + (gen_thresh seedHistory.dropLast).tStd
        < (10000 : ℝ) - (seedHistory.map Found.t).getLastD 0 ∧
      step ⟨false, [], 1⟩ ⟨[⟨0, 5⟩], seedHistory⟩ ⟨10000, 7⟩ =
        (⟨[⟨0, 5⟩, ⟨10000, 7⟩], seedHistory⟩, none, none) := by
  constructor
  · norm_num [gen_thresh, genThreshAxis, threshRaw, genVariance, distOf, trimOutliers,
      npStd, genDist, linspace, wavg, listVar, listMean, listSum, seedHistory,
      Real.sqrt_zero, List.range_succ]
  · norm_num [step, detectBranch, fixSeeds, resetHistory, peak_or_trough, divideFactor,
      avgrate, gen_thresh, genThreshAxis, threshRaw, genVariance, distOf, trimOutliers,
      npStd, genDist, linspace, wavg, listVar, listMean, listSum, listMax, listMin,
      get_extrema, normalize, fixFlat, whereIdx, whereIdxFrom, diffs, diffsI, npSign,
      pySlice, pyStart, seedHistory, List.getD, Real.sqrt_zero, List.range_succ]

/-- C4 (amended): whenever the Classifier confirms an extremum at window
index `ex` on an accepted sample, the Detection Loop always appends a
DetectionRecord to the history, but it emits an event to the output queue
only when `ex` equals `len(window) - 2` exactly (the freshest index an
extremum can have); a detection confirmed at any earlier index is appended
to the history yet never sent to the output — there is no late/delayed
logging path. -/
theorem C4_emission (cfg : Config) (s : LoopState) (i : Samp) (ex : ℕ)
    (h1 : ¬ i.t < (s.sig.map Samp.t).getLastD 0 + cfg.st)
    (hdet :
      (peak_or_trough (s.sig ++ [i]) s.lf (gen_thresh s.lf.dropLast) cfg.st).1 = some ex ∨
        ((peak_or_trough (s.sig ++ [i]) s.lf (gen_thresh s.lf.dropLast) cfg.st).1 = none ∧
          (peak_or_trough (s.sig ++ [i]) s.lf (gen_thresh s.lf.dropLast) cfg.st).2
            = some ex)) :
    (∃ r, (step cfg s i).2.1 = some r ∧
        (step cfg s i).1.lf = fixSeeds cfg (s.lf ++ [r])) ∧
      ((step cfg s i).2.2 ≠ none ↔ ex = (s.sig ++ [i]).length - 2) := by
  simp only [step, if_neg h1]
  rcases hdet with hp | ⟨hp, ht⟩
  · rw [hp, if_pos (by simp)]
    simp only [detectBranch]
    refine ⟨⟨_, by trivial, by trivial⟩, ?_⟩
    split
    next hx => simpa using hx
    next hx => simpa using hx
  · rw [hp, ht, if_pos (by simp)]
    simp only [detectBranch, Option.getD_some]
    refine ⟨⟨_, by trivial, by trivial⟩, ?_⟩
    split
    next hx => simpa using hx
    next hx => simpa using hx

/-- Witness for C4: a fresh peak (index 2 in a four-sample window, which is
`len - 2`) is appended and emitted. -/
theorem C4_witness :
    (∃ r, (step ⟨true, [⟨1, 100, 10⟩, ⟨0, 200, 0⟩, ⟨1, 300, 10⟩, ⟨0, 400, 0⟩], 1⟩
        ⟨[⟨1000, 0⟩, ⟨1001, 5⟩, ⟨1002, 20⟩],
          [⟨1, 100, 10⟩, ⟨0, 200, 0⟩, ⟨1, 300, 10⟩, ⟨0, 900, 0⟩]⟩ ⟨1003, 5⟩).2.1
      = some r ∧
      (step ⟨true, [⟨1, 100, 10⟩, ⟨0, 200, 0⟩, ⟨1, 300, 10⟩, ⟨0, 400, 0⟩], 1⟩
        ⟨[⟨1000, 0⟩, ⟨1001, 5⟩, ⟨1002, 20⟩],
          [⟨1, 100, 10⟩, ⟨0, 200, 0⟩, ⟨1, 300, 10⟩, ⟨0, 900, 0⟩]⟩ ⟨1003, 5⟩).1.lf
        = fixSeeds ⟨true, [⟨1, 100, 10⟩, ⟨0, 200, 0⟩, ⟨1, 300, 10⟩, ⟨0, 400, 0⟩], 1⟩
          ([⟨1, 100, 10⟩, ⟨0, 200, 0⟩, ⟨1, 300, 10⟩, ⟨0, 900, 0⟩] ++ [r])) ∧
      ((step ⟨true, [⟨1, 100, 10⟩, ⟨0, 200, 0⟩, ⟨1, 300, 10⟩, ⟨0, 400, 0⟩], 1⟩
        ⟨[⟨1000, 0⟩, ⟨1001, 5⟩, ⟨1002, 20⟩],
          [⟨1, 100, 10⟩, ⟨0, 200, 0⟩, ⟨1, 300, 10⟩, ⟨0, 900, 0⟩]⟩ ⟨1003, 5⟩).2.2 ≠ none ↔
        2 = ([⟨1000, 0⟩, ⟨1001, 5⟩, ⟨1002, 20⟩] ++ [⟨1003, 5⟩] : List Samp).length - 2) :=
  C4_emission ⟨true, [⟨1, 100, 10⟩, ⟨0, 200, 0⟩, ⟨1, 300, 10⟩, ⟨0, 400, 0⟩], 1⟩
    ⟨[⟨1000, 0⟩, ⟨1001, 5⟩, ⟨1002, 20⟩],
      [⟨1, 100, 10⟩, ⟨0, 200, 0⟩, ⟨1, 300, 10⟩, ⟨0, 900, 0⟩]⟩ ⟨1003, 5⟩ 2
    (by norm_num)
    (Or.inl (by
      norm_num [peak_or_trough, divideFactor, avgrate, gen_thresh, genThreshAxis,
        threshRaw, genVariance, distOf, trimOutliers, npStd, genDist, linspace, wavg,
        listVar, listMean, listSum, listMax, listMin, get_extrema, normalize, fixFlat,
        whereIdx, whereIdxFrom, diffs, diffsI, npSign, pySlice, pyStart, List.getD,
        Real.sqrt_zero]))

/-- Counterexample to C4 as stated: a baselined session in which a small
peak (height 4 at t=1010) is rejected while fresh (the height margin is 5)
and only confirmed 70 seconds of drift later, when the elapsed-time factor
has shrunk the margin to 75/19 < 4 — by then the peak sits at window index
2 of a six-sample window, so `ex ≠ len(sig) - 2`: the record is appended to
the history but the session's output event list stays empty.  The confirmed
detection is silently dropped from the output. -/
theorem C4_cex :
    (run ⟨true, [⟨1, 100, 10⟩, ⟨0, 200, 0⟩, ⟨1, 300, 10⟩, ⟨0, 400, 0⟩], 1⟩
        (initState ⟨true, [⟨1, 100, 10⟩, ⟨0, 200, 0⟩, ⟨1, 300, 10⟩, ⟨0, 400, 0⟩], 1⟩
          ⟨1000, 0⟩)
        [⟨1005, 2⟩, ⟨1010, 4⟩, ⟨1015, 2⟩, ⟨1020, 1⟩, ⟨1090, 1⟩]).2.1
      = [⟨1, 1010, 4⟩] ∧
    (run ⟨true, [⟨1, 100, 10⟩, ⟨0, 200, 0⟩, ⟨1, 300, 10⟩, ⟨0, 400, 0⟩], 1⟩
        (initState ⟨true, [⟨1, 100, 10⟩, ⟨0, 200, 0⟩, ⟨1, 300, 10⟩, ⟨0, 400, 0⟩], 1⟩
          ⟨1000, 0⟩)
        [⟨1005, 2⟩, ⟨1010, 4⟩, ⟨1015, 2⟩, ⟨1020, 1⟩, ⟨1090, 1⟩]).2.2
      = ([] : List Event) := by
  have h0 : initState ⟨true, [⟨1, 100, 10⟩, ⟨0, 200, 0⟩, ⟨1, 300, 10⟩, ⟨0, 400, 0⟩], 1⟩
      ⟨1000, 0⟩
      = ⟨[⟨1000, 0⟩], [⟨1, 100, 10⟩, ⟨0, 200, 0⟩, ⟨1, 300, 10⟩, ⟨0, 900, 0⟩]⟩ := by
    norm_num [initState, resetHistory, gen_thresh, genThreshAxis, threshRaw, distOf,
      trimOutliers, npStd, genDist, linspace, wavg, listVar, listMean, listSum,
      Real.sqrt_zero]
  have e1 : step ⟨true, [⟨1, 100, 10⟩, ⟨0, 200, 0⟩, ⟨1, 300, 10⟩, ⟨0, 400, 0⟩], 1⟩
      ⟨[⟨1000, 0⟩], [⟨1, 100, 10⟩, ⟨0, 200, 0⟩, ⟨1, 300, 10⟩, ⟨0, 900, 0⟩]⟩ ⟨1005, 2⟩
      = (⟨[⟨1000, 0⟩, ⟨1005, 2⟩],
          [⟨1, 100, 10⟩, ⟨0, 200, 0⟩, ⟨1, 300, 10⟩, ⟨0, 900, 0⟩]⟩, none, none) := by
    norm_num [step, detectBranch, fixSeeds, resetHistory, peak_or_trough, divideFactor,
      avgrate, gen_thresh, genThreshAxis, threshRaw, distOf, trimOutliers, npStd,
      genDist, linspace, wavg, listVar, listMean, listSum, listMax, listMin,
      get_extrema, normalize, fixFlat, whereIdx, whereIdxFrom, diffs, diffsI, npSign,
      pySlice, pyStart, List.getD, Real.sqrt_zero]
  have e2 : step ⟨true, [⟨1, 100, 10⟩, ⟨0, 200, 0⟩, ⟨1, 300, 10⟩, ⟨0, 400, 0⟩], 1⟩
      ⟨[⟨1000, 0⟩, ⟨1005, 2⟩], [⟨1, 100, 10⟩, ⟨0, 200, 0⟩, ⟨1, 300, 10⟩, ⟨0, 900, 0⟩]⟩
      ⟨1010, 4⟩
      = (⟨[⟨1000, 0⟩, ⟨1005, 2⟩, ⟨1010, 4⟩],
          [⟨1, 100, 10⟩, ⟨0, 200, 0⟩, ⟨1, 300, 10⟩, ⟨0, 900, 0⟩]⟩, none, none) := by
    norm_num [step, detectBranch, fixSeeds, resetHistory, peak_or_trough, divideFactor,
      avgrate, gen_thresh, genThreshAxis, threshRaw, distOf, trimOutliers, npStd,
      genDist, linspace, wavg, listVar, listMean, listSum, listMax, listMin,
      get_extrema, normalize, fixFlat, whereIdx, whereIdxFrom, diffs, diffsI, npSign,
      pySlice, pyStart, List.getD, Real.sqrt_zero]
  have e3 : step ⟨true, [⟨1, 100, 10⟩, ⟨0, 200, 0⟩, ⟨1, 300, 10⟩, ⟨0, 400, 0⟩], 1⟩
      ⟨[⟨1000, 0⟩, ⟨1005, 2⟩, ⟨1010, 4⟩],
        [⟨1, 100, 10⟩, ⟨0, 200, 0⟩, ⟨1, 300, 10⟩, ⟨0, 900, 0⟩]⟩ ⟨1015, 2⟩
      = (⟨[⟨1000, 0⟩, ⟨1005, 2⟩, ⟨1010, 4⟩, ⟨1015, 2⟩],
          [⟨1, 100, 10⟩, ⟨0, 200, 0⟩, ⟨1, 300, 10⟩, ⟨0, 900, 0⟩]⟩, none, none) := by
    norm_num [step, detectBranch, fixSeeds, resetHistory, peak_or_trough, divideFactor,
      avgrate, gen_thresh, genThreshAxis, threshRaw, distOf, trimOutliers, npStd,
      genDist, linspace, wavg, listVar, listMean, listSum, listMax, listMin,
      get_extrema, normalize, fixFlat, whereIdx, whereIdxFrom, diffs, diffsI, npSign,
      pySlice, pyStart, List.getD, Real.sqrt_zero]
  have e4 : step ⟨true, [⟨1, 100, 10⟩, ⟨0, 200, 0⟩, ⟨1, 300, 10⟩, ⟨0, 400, 0⟩], 1⟩
      ⟨[⟨1000, 0⟩, ⟨1005, 2⟩, ⟨1010, 4⟩, ⟨1015, 2⟩],
        [⟨1, 100, 10⟩, ⟨0, 200, 0⟩, ⟨1, 300, 10⟩, ⟨0, 900, 0⟩]⟩ ⟨1020, 1⟩
      = (⟨[⟨1000, 0⟩, ⟨1005, 2⟩, ⟨1010, 4⟩, ⟨1015, 2⟩, ⟨1020, 1⟩],
          [⟨1, 100, 10⟩, ⟨0, 200, 0⟩, ⟨1, 300, 10⟩, ⟨0, 900, 0⟩]⟩, none, none) := by
    norm_num [step, detectBranch, fixSeeds, resetHistory, peak_or_trough, divideFactor,
      avgrate, gen_thresh, genThreshAxis, threshRaw, distOf, trimOutliers, npStd,
      genDist, linspace, wavg, listVar, listMean, listSum, listMax, listMin,
      get_extrema, normalize, fixFlat, whereIdx, whereIdxFrom, diffs, diffsI, npSign,
      pySlice, pyStart, List.getD, Real.sqrt_zero]
  have e5 : step ⟨true, [⟨1, 100, 10⟩, ⟨0, 200, 0⟩, ⟨1, 300, 10⟩, ⟨0, 400, 0⟩], 1⟩
      ⟨[⟨1000, 0⟩, ⟨1005, 2⟩, ⟨1010, 4⟩, ⟨1015, 2⟩, ⟨1020, 1⟩],
        [⟨1, 100, 10⟩, ⟨0, 200, 0⟩, ⟨1, 300, 10⟩, ⟨0, 900, 0⟩]⟩ ⟨1090, 1⟩
      = (⟨[⟨1090, 1⟩],
          [⟨1, 100, 10⟩, ⟨0, 200, 0⟩, ⟨1, 300, 10⟩, ⟨0, 900, 0⟩, ⟨1, 1010, 4⟩]⟩,
          some ⟨1, 1010, 4⟩, none) := by
    norm_num [step, detectBranch, fixSeeds, resetHistory, peak_or_trough, divideFactor,
      avgrate, gen_thresh, genThreshAxis, threshRaw, distOf, trimOutliers, npStd,
      genDist, linspace, wavg, listVar, listMean, listSum, listMax, listMin,
      get_extrema, normalize, fixFlat, whereIdx, whereIdxFrom, diffs, diffsI, npSign,
      pySlice, pyStart, List.getD, Real.sqrt_zero]
    all_goals simp
  rw [h0]
  simp only [run, e1, e2, e3, e4, e5, Option.toList]
  exact ⟨rfl, rfl⟩

/-- C1 (amended): in every session of the Detection Loop run without a
baseline (and started from a sample with nonnegative timestamp and a
positive sampling time), the kinds of the records appended to the history
strictly alternate: no two adjacent appended records share a kind, because
the Classifier never looks for the kind recorded last and each appended
record becomes the last row of the history.  (With a baseline, the
10-second reset can break the alternation across a reset — see the
counterexample.) -/
theorem C1_alternation_no_baseline (cfg : Config) (s0 : Samp) (ins : List Samp)
    (hb : cfg.baseline = false) (hst : 0 < cfg.st) (h0 : 0 ≤ s0.t) :
    List.Chain' (· ≠ ·) (((run cfg (initState cfg s0) ins).2.1).map Found.cls) := by
  have hgw : GoodWin (initState cfg s0) := by
    unfold initState
    rw [if_neg (by simp [hb])]
    exact ⟨by simp, by simpa using h0, by simp⟩
  exact (run_chain cfg hb hst ins _ hgw).tail

/-- Witness for C1 on a short two-sample session without a baseline. -/
theorem C1_witness :
    List.Chain' (· ≠ ·) (((run ⟨false, [], 1⟩ (initState ⟨false, [], 1⟩ ⟨0, 0⟩)
      [⟨5, 1⟩, ⟨6, 2⟩]).2.1).map Found.cls) :=
  C1_alternation_no_baseline ⟨false, [], 1⟩ ⟨0, 0⟩ [⟨5, 1⟩, ⟨6, 2⟩] rfl (by norm_num) le_rfl

/-- Counterexample to C1 as stated: a baselined session whose baseline seed
ends in a trough.  A peak is confirmed at t=1002; then a silent 11-second
gap triggers the 10-second reset, which replaces the history with the
baseline seed (last kind: trough); the Classifier therefore looks for a
peak again and confirms a second peak at t=12002.  The session's sequence
of appended confirmed records has kinds `[1, 1]` — two adjacent Peaks. -/
theorem C1_cex :
    ((run ⟨true, [⟨1, 100, 10⟩, ⟨0, 200, 0⟩, ⟨1, 300, 10⟩, ⟨0, 400, 0⟩], 1⟩
        (initState ⟨true, [⟨1, 100, 10⟩, ⟨0, 200, 0⟩, ⟨1, 300, 10⟩, ⟨0, 400, 0⟩], 1⟩
          ⟨1000, 0⟩)
        [⟨1001, 5⟩, ⟨1002, 20⟩, ⟨1003, 5⟩, ⟨12000, 5⟩, ⟨12001, 5⟩, ⟨12002, 20⟩,
          ⟨12003, 5⟩]).2.1).map Found.cls = [1, 1] := by
  have hsq : Real.sqrt 62500 = 250 := by
    rw [show (62500 : ℝ) = 250 ^ 2 by norm_num]
    exact Real.sqrt_sq (by norm_num)
  have h0 : initState ⟨true, [⟨1, 100, 10⟩, ⟨0, 200, 0⟩, ⟨1, 300, 10⟩, ⟨0, 400, 0⟩], 1⟩
      ⟨1000, 0⟩
      = ⟨[⟨1000, 0⟩], [⟨1, 100, 10⟩, ⟨0, 200, 0⟩, ⟨1, 300, 10⟩, ⟨0, 900, 0⟩]⟩ := by
    norm_num [initState, resetHistory, gen_thresh, genThreshAxis, threshRaw, distOf,
      trimOutliers, npStd, genDist, linspace, wavg, listVar, listMean, listSum,
      Real.sqrt_zero]
  have f1 : step ⟨true, [⟨1, 100, 10⟩, ⟨0, 200, 0⟩, ⟨1, 300, 10⟩, ⟨0, 400, 0⟩], 1⟩
      ⟨[⟨1000, 0⟩], [⟨1, 100, 10⟩, ⟨0, 200, 0⟩, ⟨1, 300, 10⟩, ⟨0, 900, 0⟩]⟩ ⟨1001, 5⟩
      = (⟨[⟨1000, 0⟩, ⟨1001, 5⟩],
          [⟨1, 100, 10⟩, ⟨0, 200, 0⟩, ⟨1, 300, 10⟩, ⟨0, 900, 0⟩]⟩, none, none) := by
    norm_num [step, detectBranch, fixSeeds, resetHistory, peak_or_trough, divideFactor,
      avgrate, gen_thresh, genThreshAxis, threshRaw, distOf, trimOutliers, npStd,
      genDist, linspace, wavg, listVar, listMean, listSum, listMax, listMin,
      get_extrema, normalize, fixFlat, whereIdx, whereIdxFrom, diffs, diffsI, npSign,
      pySlice, pyStart, List.getD, Real.sqrt_zero]
  have f2 : step ⟨true, [⟨1, 100, 10⟩, ⟨0, 200, 0⟩, ⟨1, 300, 10⟩, ⟨0, 400, 0⟩], 1⟩
      ⟨[⟨1000, 0⟩, ⟨1001, 5⟩], [⟨1, 100, 10⟩, ⟨0, 200, 0⟩, ⟨1, 300, 10⟩, ⟨0, 900, 0⟩]⟩
      ⟨1002, 20⟩
      = (⟨[⟨1000, 0⟩, ⟨1001, 5⟩, ⟨1002, 20⟩],
          [⟨1, 100, 10⟩, ⟨0, 200, 0⟩, ⟨1, 300, 10⟩, ⟨0, 900, 0⟩]⟩, none, none) := by
    norm_num [step, detectBranch, fixSeeds, resetHistory, peak_or_trough, divideFactor,
      avgrate, gen_thresh, genThreshAxis, threshRaw, distOf, trimOutliers, npStd,
      genDist, linspace, wavg, listVar, listMean, listSum, listMax, listMin,
      get_extrema, normalize, fixFlat, whereIdx, whereIdxFrom, diffs, diffsI, npSign,
      pySlice, pyStart, List.getD, Real.sqrt_zero]
  have f3 : step ⟨true, [⟨1, 100, 10⟩, ⟨0, 200, 0⟩, ⟨1, 300, 10⟩, ⟨0, 400, 0⟩], 1⟩
      ⟨[⟨1000, 0⟩, ⟨1001, 5⟩, ⟨1002, 20⟩],
        [⟨1, 100, 10⟩, ⟨0, 200, 0⟩, ⟨1, 300, 10⟩, ⟨0, 900, 0⟩]⟩ ⟨1003, 5⟩
      = (⟨[⟨1003, 5⟩],
          [⟨1, 100, 10⟩, ⟨0, 200, 0⟩, ⟨1, 300, 10⟩, ⟨0, 900, 0⟩, ⟨1, 1002, 20⟩]⟩,
          some ⟨1, 1002, 20⟩, some ⟨1003, 5, 1⟩) := by
    norm_num [step, detectBranch, fixSeeds, resetHistory, peak_or_trough, divideFactor,
      avgrate, gen_thresh, genThreshAxis, threshRaw, distOf, trimOutliers, npStd,
      genDist, linspace, wavg, listVar, listMean, listSum, listMax, listMin,
      get_extrema, normalize, fixFlat, whereIdx, whereIdxFrom, diffs, diffsI, npSign,
      pySlice, pyStart, List.getD, Real.sqrt_zero]
    all_goals simp
  have f4 : step ⟨true, [⟨1, 100, 10⟩, ⟨0, 200, 0⟩, ⟨1, 300, 10⟩, ⟨0, 400, 0⟩], 1⟩
      ⟨[⟨1003, 5⟩],
        [⟨1, 100, 10⟩, ⟨0, 200, 0⟩, ⟨1, 300, 10⟩, ⟨0, 900, 0⟩, ⟨1, 1002, 20⟩]⟩
      ⟨12000, 5⟩
      = (⟨[⟨12000, 5⟩],
          [⟨1, 100, 10⟩, ⟨0, 200, 0⟩, ⟨1, 300, 10⟩, ⟨0, 11900, 0⟩]⟩, none, none) := by
    have hsq' : Real.sqrt 62500 = 250 := hsq
    norm_num [step, detectBranch, fixSeeds, resetHistory, peak_or_trough, divideFactor,
      avgrate, gen_thresh, genThreshAxis, threshRaw, distOf, trimOutliers, npStd,
      genDist, linspace, wavg, listVar, listMean, listSum, listMax, listMin,
      get_extrema, normalize, fixFlat, whereIdx, whereIdxFrom, diffs, diffsI, npSign,
      pySlice, pyStart, List.getD, Real.sqrt_zero, hsq']
  have f5 : step ⟨true, [⟨1, 100, 10⟩, ⟨0, 200, 0⟩, ⟨1, 300, 10⟩, ⟨0, 400, 0⟩], 1⟩
      ⟨[⟨12000, 5⟩], [⟨1, 100, 10⟩, ⟨0, 200, 0⟩, ⟨1, 300, 10⟩, ⟨0, 11900, 0⟩]⟩
      ⟨12001, 5⟩
      = (⟨[⟨12000, 5⟩, ⟨12001, 5⟩],
          [⟨1, 100, 10⟩, ⟨0, 200, 0⟩, ⟨1, 300, 10⟩, ⟨0, 11900, 0⟩]⟩, none, none) := by
    norm_num [step, detectBranch, fixSeeds, resetHistory, peak_or_trough, divideFactor,
      avgrate, gen_thresh, genThreshAxis, threshRaw, distOf, trimOutliers, npStd,
      genDist, linspace, wavg, listVar, listMean, listSum, listMax, listMin,
      get_extrema, normalize, fixFlat, whereIdx, whereIdxFrom, diffs, diffsI, npSign,
      pySlice, pyStart, List.getD, Real.sqrt_zero]
  have f6 : step ⟨true, [⟨1, 100, 10⟩, ⟨0, 200, 0⟩, ⟨1, 300, 10⟩, ⟨0, 400, 0⟩], 1⟩
      ⟨[⟨12000, 5⟩, ⟨12001, 5⟩], [⟨1, 100, 10⟩, ⟨0, 200, 0⟩, ⟨1, 300, 10⟩, ⟨0, 11900, 0⟩]⟩
      ⟨12002, 20⟩
      = (⟨[⟨12000, 5⟩, ⟨12001, 5⟩, ⟨12002, 20⟩],
          [⟨1, 100, 10⟩, ⟨0, 200, 0⟩, ⟨1, 300, 10⟩, ⟨0, 11900, 0⟩]⟩, none, none) := by
    norm_num [step, detectBranch, fixSeeds, resetHistory, peak_or_trough, divideFactor,
      avgrate, gen_thresh, genThreshAxis, threshRaw, distOf, trimOutliers, npStd,
      genDist, linspace, wavg, listVar, listMean, listSum, listMax, listMin,
      get_extrema, normalize, fixFlat, whereIdx, whereIdxFrom, diffs, diffsI, npSign,
      pySlice, pyStart, List.getD, Real.sqrt_zero]
  have f7 : step ⟨true, [⟨1, 100, 10⟩, ⟨0, 200, 0⟩, ⟨1, 300, 10⟩, ⟨0, 400, 0⟩], 1⟩
      ⟨[⟨12000, 5⟩, ⟨12001, 5⟩, ⟨12002, 20⟩],
        [⟨1, 100, 10⟩, ⟨0, 200, 0⟩, ⟨1, 300, 10⟩, ⟨0, 11900, 0⟩]⟩ ⟨12003, 5⟩
      = (⟨[⟨12003, 5⟩],
          [⟨1, 100, 10⟩, ⟨0, 200, 0⟩, ⟨1, 300, 10⟩, ⟨0, 11900, 0⟩, ⟨1, 12002, 20⟩]⟩,
          some ⟨1, 12002, 20⟩, some ⟨12003, 5, 1⟩) := by
    norm_num [step, detectBranch, fixSeeds, resetHistory, peak_or_trough, divideFactor,
      avgrate, gen_thresh, genThreshAxis, threshRaw, distOf, trimOutliers, npStd,
      genDist, linspace, wavg, listVar, listMean, listSum, listMax, listMin,
      get_extrema, normalize, fixFlat, whereIdx, whereIdxFrom, diffs, diffsI, npSign,
      pySlice, pyStart, List.getD, Real.sqrt_zero]
    all_goals simp
  rw [h0]
  simp only [run, f1, f2, f3, f4, f5, f6, f7, Option.toList]
  rfl

end RTPeaks
